import Mathlib

/-!
Shallow embedding of the task REST service in `src/precode.go`.

The program is a single Go file: a `Task` struct, a package-level map
`tasks : map[string]Task` seeded with two records, four HTTP handlers
(`getTasks`, `getTask`, `postTask`, `deleteTask`) and a `main` that wires
the routes and calls `http.ListenAndServe(":8080", ...)`.

Embedding choices:
  * The shared map is threaded explicitly: each handler becomes a pure
    function from the current map (and its request data) to the new map
    and an HTTP response.
  * JSON is modelled by an inductive `Json` value type; `json.Marshal` of
    a `Task` is `Task.toJson`, `json.Unmarshal` into a `Task` is
    `Task.fromJson` (object fields folded left to right, unknown fields
    ignored, missing fields keep the zero value, `null` leaves a field
    unchanged, a wrong type is an error — mirroring encoding/json).
    `json.Marshal` of the map sorts keys, as Go does.
  * `json.Marshal` cannot fail on these data in Go; since the spec talks
    about the marshal-failure branches, the two read handlers are defined
    through generic versions parameterised by the marshal function, and
    the concrete handlers instantiate them with the total encoder.
  * `http.Error(w, msg, code)` becomes a plain-text response with status
    `code` and body `msg`.
  * A POST request body is either a read error, or a byte payload that
    parsed to a `Json` value, or a syntactically invalid payload; the
    latter two feed `json.Unmarshal`.
-/

namespace Precode

/-- JSON values, as far as encoding/json needs them for this service. -/
inductive Json where
  | str (s : String)
  | num (n : Int)
  | bool (b : Bool)
  | null
  | arr (elems : List Json)
  | obj (fields : List (String × Json))

/-- The JSON type name used in Go's unmarshal type-error messages. -/
def Json.typeName : Json → String
  | .str _ => "string"
  | .num _ => "number"
  | .bool _ => "bool"
  | .null => "null"
  | .arr _ => "array"
  | .obj _ => "object"

/-- The task record: `Task` in `src/precode.go` with json tags
`id`, `description`, `note`, `applications`. -/
structure Task where
  ID : String
  Description : String
  Note : String
  Applications : List String
deriving DecidableEq

/-- Go zero value of `Task`: empty strings and an empty slice. -/
def Task.zero : Task := { ID := "", Description := "", Note := "", Applications := [] }

/-- `json.Marshal` of a `Task` (field order as declared in the struct). -/
def Task.toJson (t : Task) : Json :=
  .obj [("id", .str t.ID), ("description", .str t.Description),
        ("note", .str t.Note), ("applications", .arr (t.Applications.map .str))]

/-- Unmarshal a JSON value into a Go `string` field: a string sets it,
`null` keeps the current value, anything else is a type error. -/
def decodeStringField (v : Json) (cur : String) : Except String String :=
  match v with
  | .str s => .ok s
  | .null => .ok cur
  | v => .error ("json: cannot unmarshal " ++ v.typeName ++ " into Go value of type string")

/-- Unmarshal a JSON array's elements into Go `[]string` elements. -/
def decodeStringList : List Json → Except String (List String)
  | [] => .ok []
  | .str s :: rest => (decodeStringList rest).map (s :: ·)
  | .null :: rest => (decodeStringList rest).map ("" :: ·)
  | v :: _ => .error ("json: cannot unmarshal " ++ v.typeName ++ " into Go value of type string")

/-- Unmarshal a JSON value into the `[]string` field. -/
def decodeApplications (v : Json) (cur : List String) : Except String (List String) :=
  match v with
  | .arr xs => decodeStringList xs
  | .null => .ok cur
  | v => .error ("json: cannot unmarshal " ++ v.typeName ++ " into Go value of type []string")

/-- Apply one JSON object field to a partially decoded task; unknown
field names are ignored, as encoding/json does. -/
def Task.setField (t : Task) (name : String) (v : Json) : Except String Task :=
  if name = "id" then (decodeStringField v t.ID).map fun s => { t with ID := s }
  else if name = "description" then (decodeStringField v t.Description).map fun s => { t with Description := s }
  else if name = "note" then (decodeStringField v t.Note).map fun s => { t with Note := s }
  else if name = "applications" then (decodeApplications v t.Applications).map fun l => { t with Applications := l }
  else .ok t

/-- `json.Unmarshal` of a JSON value into a `Task`: must be an object;
fields are applied left to right onto the zero value. -/
def Task.fromJson (j : Json) : Except String Task :=
  match j with
  | .obj fields => fields.foldlM (fun t p => Task.setField t p.1 p.2) Task.zero
  | v => .error ("json: cannot unmarshal " ++ v.typeName ++ " into Go value of type main.Task")

/-- The shared state: Go's `map[string]Task`, as an association list with
unique keys. -/
abbrev TaskMap := List (String × Task)

/-- Map lookup `tasks[key]` (first matching key). -/
def TaskMap.find? : TaskMap → String → Option Task
  | [], _ => none
  | (k, v) :: rest, key => if k = key then some v else TaskMap.find? rest key

/-- Go's `delete(tasks, key)`: remove every entry with that key. -/
def TaskMap.erase : TaskMap → String → TaskMap
  | [], _ => []
  | (k, v) :: rest, key =>
    if k = key then TaskMap.erase rest key else (k, v) :: TaskMap.erase rest key

/-- Go's `tasks[key] = v`: the entry with that key is replaced wholesale. -/
def TaskMap.insert (m : TaskMap) (key : String) (v : Task) : TaskMap :=
  m.erase key ++ [(key, v)]

/-- Insert an entry into a key-sorted list of JSON object fields. -/
def insertSortedByKey (p : String × Json) : List (String × Json) → List (String × Json)
  | [] => [p]
  | q :: rest =>
    match compare p.1 q.1 with
    | .gt => q :: insertSortedByKey p rest
    | _ => p :: q :: rest

/-- Sort JSON object fields by key, as `json.Marshal` does for Go maps. -/
def sortByKey : List (String × Json) → List (String × Json)
  | [] => []
  | p :: rest => insertSortedByKey p (sortByKey rest)

/-- `json.Marshal` of the whole map: a JSON object, keys sorted. -/
def TaskMap.toJson (m : TaskMap) : Json :=
  .obj (sortByKey (m.map fun p => (p.1, p.2.toJson)))

/-- The seed task with id "1" from the `tasks` literal. -/
def seedTask1 : Task :=
  { ID := "1"
    Description := "Сделать финальное задание темы REST API"
    Note := "Если сегодня сделаю, то завтра будет свободный день. Ура!"
    Applications := ["VS Code", "Terminal", "git"] }

/-- The seed task with id "2" from the `tasks` literal. -/
def seedTask2 : Task :=
  { ID := "2"
    Description := "Протестировать финальное задание с помощью Postmen"
    Note := "Лучше это делать в процессе разработки, каждый раз, когда запускаешь сервер и проверяешь хендлер"
    Applications := ["VS Code", "Terminal", "git", "Postman"] }

/-- The package-level `tasks` map's initial value. -/
def tasks : TaskMap := [("1", seedTask1), ("2", seedTask2)]

/-- An HTTP response body: empty, plain text, or a JSON document. -/
inductive Body where
  | empty
  | text (s : String)
  | json (j : Json)

/-- An HTTP response as the handlers produce it. -/
structure Response where
  status : Nat
  contentType : Option String
  body : Body

/-- Go's `http.Error(w, msg, code)`: plain-text error response. -/
def httpError (msg : String) (code : Nat) : Response :=
  { status := code, contentType := some "text/plain; charset=utf-8", body := .text msg }

/-- `getTasks`, generic in the marshal step (`json.Marshal(tasks)`): on a
marshal error respond 500 with the error message, otherwise 200 with the
JSON document. Read-only. -/
def getTasksWith (marshal : TaskMap → Except String Json) (tasks : TaskMap) : Response :=
  match marshal tasks with
  | .error e => httpError e 500
  | .ok j => { status := 200, contentType := some "application/json", body := .json j }

/-- The concrete `getTasks` handler: marshalling a map of tasks is total. -/
def getTasks (tasks : TaskMap) : Response :=
  getTasksWith (fun m => .ok m.toJson) tasks

/-- `getTask`, generic in the marshal step (`json.Marshal(task)`): look up
the id from the URL; absent id gives 400 "Task with given ID was not
found"; a marshal error gives 400 with the error message; otherwise 200
with the task's JSON. Returns the (unchanged) map to make the absence of
side effects explicit. -/
def getTaskWith (marshal : Task → Except String Json) (tasks : TaskMap) (targetID : String) :
    TaskMap × Response :=
  match tasks.find? targetID with
  | none => (tasks, httpError "Task with given ID was not found" 400)
  | some task =>
    match marshal task with
    | .error e => (tasks, httpError e 400)
    | .ok j => (tasks, { status := 200, contentType := some "application/json", body := .json j })

/-- The concrete `getTask` handler. -/
def getTask (tasks : TaskMap) (targetID : String) : TaskMap × Response :=
  getTaskWith (fun t => .ok t.toJson) tasks targetID

/-- A POST request body as `postTask` consumes it: reading the body may
fail; otherwise the bytes either parse to a JSON value or are
syntactically invalid (both feed `json.Unmarshal`). -/
inductive PostBody where
  | readError (msg : String)
  | syntaxError (msg : String)
  | payload (j : Json)

/-- `postTask`: read the body (read error gives 400 with the message),
unmarshal it into a `Task` (error gives 400 with the message), then store
it at the key given by the decoded body's `ID` field and respond 201 with
an empty body. -/
def postTask (tasks : TaskMap) (body : PostBody) : TaskMap × Response :=
  match body with
  | .readError msg => (tasks, httpError msg 400)
  | .syntaxError msg => (tasks, httpError msg 400)
  | .payload j =>
    match Task.fromJson j with
    | .error msg => (tasks, httpError msg 400)
    | .ok newTask =>
      (tasks.insert newTask.ID newTask,
       { status := 201, contentType := some "application/json", body := .empty })

/-- `deleteTask`: look up the id from the URL; absent id gives 400
"Task was not found."; otherwise delete the entry and respond 200 with an
empty body. -/
def deleteTask (tasks : TaskMap) (taskID : String) : TaskMap × Response :=
  match tasks.find? taskID with
  | none => (tasks, httpError "Task was not found." 400)
  | some _ =>
    (tasks.erase taskID,
     { status := 200, contentType := some "application/json", body := .empty })

/-- The listen address passed to `http.ListenAndServe` in `main`. -/
def serveAddr : String := ":8080"

/-- The route table registered on the chi router in `main`. -/
def routes : List (String × String) :=
  [("GET", "/tasks"), ("POST", "/tasks"), ("GET", "/tasks/{id}"), ("DELETE", "/tasks/{id}")]

/-- The lines `main` prints, as a function of what
`http.ListenAndServe(":8080", router)` returned (`some e` = error `e`,
`none` = returned without error): an error is logged and `main` returns;
otherwise the startup message "Listen and Serve" is printed. -/
def mainLogs : Option String → List String
  | some e => ["Ошибка при запуске сервера: " ++ e]
  | none => ["Listen and Serve"]

/-- States of the `tasks` map reachable from the seed by the two mutating
handlers (`postTask` and `deleteTask`). -/
inductive Reachable : TaskMap → Prop
  | seed : Reachable tasks
  | post (m : TaskMap) (b : PostBody) : Reachable m → Reachable (postTask m b).1
  | del (m : TaskMap) (id : String) : Reachable m → Reachable (deleteTask m id).1

/-- Every key of the map equals the `ID` field of the task stored there. -/
def KeysMatch (m : TaskMap) : Prop := ∀ p ∈ m, p.1 = p.2.ID

/-! ### Lemmas about the map operations and the JSON codec -/

/-- After erasing a key, looking it up yields nothing. -/
theorem find?_erase (m : TaskMap) (key : String) : (m.erase key).find? key = none := by
  induction m with
  | nil => rfl
  | cons p rest ih =>
    obtain ⟨k, v⟩ := p
    by_cases h : k = key <;> simp [TaskMap.erase, h, TaskMap.find?, ih]

/-- Lookup skips a prefix in which the key does not occur. -/
theorem find?_append_of_none (a b : TaskMap) (key : String) (h : a.find? key = none) :
    (a ++ b).find? key = b.find? key := by
  induction a with
  | nil => rfl
  | cons p rest ih =>
    obtain ⟨k, v⟩ := p
    by_cases hk : k = key
    · simp [TaskMap.find?, hk] at h
    · simp only [TaskMap.find?, hk, if_false] at h
      simpa [TaskMap.find?, hk] using ih h

/-- Lookup after insert at the same key returns the inserted task. -/
theorem find?_insert (m : TaskMap) (key : String) (v : Task) :
    (m.insert key v).find? key = some v := by
  unfold TaskMap.insert
  rw [find?_append_of_none _ _ _ (find?_erase m key)]
  simp [TaskMap.find?]

/-- Erasing only removes entries. -/
theorem mem_of_mem_erase {p : String × Task} {m : TaskMap} {key : String}
    (h : p ∈ m.erase key) : p ∈ m := by
  induction m with
  | nil => simp [TaskMap.erase] at h
  | cons q rest ih =>
    obtain ⟨k, v⟩ := q
    by_cases hk : k = key
    · simp only [TaskMap.erase, hk, if_true] at h
      exact List.mem_cons_of_mem _ (ih h)
    · simp only [TaskMap.erase, hk, if_false, List.mem_cons] at h
      rcases h with h | h
      · exact h ▸ List.mem_cons_self _ _
      · exact List.mem_cons_of_mem _ (ih h)

/-- Membership after an insert: an old entry or the inserted one. -/
theorem mem_insert_cases {p : String × Task} {m : TaskMap} {key : String} {v : Task}
    (h : p ∈ m.insert key v) : p ∈ m ∨ p = (key, v) := by
  unfold TaskMap.insert at h
  rcases List.mem_append.mp h with h | h
  · exact .inl (mem_of_mem_erase h)
  · exact .inr (List.mem_singleton.mp h)

/-- Decoding a list of JSON strings recovers the underlying strings. -/
theorem decodeStringList_map_str (l : List String) :
    decodeStringList (l.map Json.str) = .ok l := by
  induction l with
  | nil => rfl
  | cons s rest ih => simp [decodeStringList, ih, Except.map]

/-- Unmarshal after marshal recovers the task field for field. -/
theorem fromJson_toJson (t : Task) : Task.fromJson t.toJson = .ok t := by
  obtain ⟨i, d, n, a⟩ := t
  simp only [Task.toJson, Task.fromJson, List.foldlM, Task.setField, Task.zero,
        decodeStringField, decodeApplications, decodeStringList_map_str, Except.map,
        String.reduceEq, if_true, if_false, reduceIte]
  rfl

/-! ### The claims -/

/-- C1: for every request body that decodes into the task shape, `postTask`
stores the decoded task under the key given by the decoded body's id field
(the handler takes no URL parameter), wholesale-replacing any entry at that
id, and responds 201 with JSON content type and an empty body. -/
theorem postTask_stores_decoded_body (m : TaskMap) (j : Json) (t : Task)
    (h : Task.fromJson j = .ok t) :
    postTask m (.payload j)
      = (m.insert t.ID t,
         { status := 201, contentType := some "application/json", body := .empty }) ∧
    (m.insert t.ID t).find? t.ID = some t :=
  ⟨by simp [postTask, h], find?_insert m t.ID t⟩

/-- Witness for C1: posting `{"id":"1","description":"x","note":"","applications":[]}`
onto the seed state replaces the seed task "1" wholesale. -/
theorem postTask_stores_decoded_body_witness :
    Task.fromJson (Json.obj [("id", Json.str "1"), ("description", Json.str "x"),
        ("note", Json.str ""), ("applications", Json.arr [])])
      = .ok ⟨"1", "x", "", []⟩ ∧
    (postTask tasks (.payload (Json.obj [("id", Json.str "1"), ("description", Json.str "x"),
        ("note", Json.str ""), ("applications", Json.arr [])]))
      = (tasks.insert "1" ⟨"1", "x", "", []⟩,
         { status := 201, contentType := some "application/json", body := .empty }) ∧
     (tasks.insert "1" ⟨"1", "x", "", []⟩).find? "1" = some ⟨"1", "x", "", []⟩) :=
  ⟨rfl, postTask_stores_decoded_body tasks _ ⟨"1", "x", "", []⟩ rfl⟩

/-- C2: the seed map has exactly the two tasks "1" and "2" with the stated
fields (task "1" described "Сделать финальное задание темы REST API" with
three applications, task "2" with four applications), and `getTasks` on it
responds 200 with exactly those entries as the JSON map. -/
theorem getTasks_seed_state :
    tasks = [("1", seedTask1), ("2", seedTask2)] ∧
    seedTask1.ID = "1" ∧
    seedTask1.Description = "Сделать финальное задание темы REST API" ∧
    seedTask1.Applications.length = 3 ∧
    seedTask2.ID = "2" ∧
    seedTask2.Applications.length = 4 ∧
    getTasks tasks
      = { status := 200, contentType := some "application/json",
          body := .json (.obj [("1", seedTask1.toJson), ("2", seedTask2.toJson)]) } :=
  ⟨rfl, rfl, rfl, rfl, rfl, rfl, rfl⟩

/-- C3: for every id absent from the map, `getTask` responds 400 with the
exact plain-text body "Task with given ID was not found" and leaves the map
unchanged. -/
theorem getTask_not_found (m : TaskMap) (id : String) (h : m.find? id = none) :
    getTask m id = (m, httpError "Task with given ID was not found" 400) ∧
    httpError "Task with given ID was not found" 400
      = { status := 400, contentType := some "text/plain; charset=utf-8",
          body := .text "Task with given ID was not found" } :=
  ⟨by simp [getTask, getTaskWith, h], rfl⟩

/-- Witness for C3: fetching the never-created id "doesnotexist" from the
seed state. -/
theorem getTask_not_found_witness :
    tasks.find? "doesnotexist" = none ∧
    getTask tasks "doesnotexist"
      = (tasks, httpError "Task with given ID was not found" 400) :=
  ⟨rfl, (getTask_not_found tasks "doesnotexist" rfl).1⟩

/-- C4: for every id absent from the map, `deleteTask` responds 400 with the
exact plain-text body "Task was not found." (trailing period) and leaves the
map unchanged. -/
theorem deleteTask_not_found (m : TaskMap) (id : String) (h : m.find? id = none) :
    deleteTask m id = (m, httpError "Task was not found." 400) ∧
    httpError "Task was not found." 400
      = { status := 400, contentType := some "text/plain; charset=utf-8",
          body := .text "Task was not found." } :=
  ⟨by simp [deleteTask, h], rfl⟩

/-- Witness for C4: deleting the absent id "doesnotexist" from the seed
state. -/
theorem deleteTask_not_found_witness :
    tasks.find? "doesnotexist" = none ∧
    deleteTask tasks "doesnotexist" = (tasks, httpError "Task was not found." 400) :=
  ⟨rfl, (deleteTask_not_found tasks "doesnotexist" rfl).1⟩

/-- C5: in every state reachable from the seed by create and delete
operations, each key of the map equals the `ID` field of the task stored
under it. -/
theorem reachable_keys_match (m : TaskMap) (h : Reachable m) : KeysMatch m := by
  induction h with
  | seed =>
    intro p hp
    simp only [tasks, List.mem_cons, List.not_mem_nil, or_false] at hp
    rcases hp with h1 | h1 <;> subst h1 <;> rfl
  | post m b hr ih =>
    cases b with
    | readError msg => exact ih
    | syntaxError msg => exact ih
    | payload j =>
      cases hj : Task.fromJson j with
      | error e =>
        intro p hp
        simp only [postTask, hj] at hp
        exact ih p hp
      | ok t =>
        intro p hp
        simp only [postTask, hj] at hp
        rcases mem_insert_cases hp with h1 | h1
        · exact ih p h1
        · subst h1; rfl
  | del m id hr ih =>
    cases hf : m.find? id with
    | none =>
      intro p hp
      simp only [deleteTask, hf] at hp
      exact ih p hp
    | some t =>
      intro p hp
      simp only [deleteTask, hf] at hp
      exact ih p (mem_of_mem_erase hp)

/-- Witness for C5: the invariant at the seed state. -/
theorem reachable_keys_match_witness : KeysMatch tasks :=
  reachable_keys_match tasks Reachable.seed

/-- C6: posting any task's JSON and then fetching by its id field yields 200
with JSON content type and a body that unmarshals to the very same task;
the fetch does not change the map. -/
theorem post_then_get_round_trip (m : TaskMap) (t : Task) :
    (getTask (postTask m (.payload t.toJson)).1 t.ID).1
      = (postTask m (.payload t.toJson)).1 ∧
    (getTask (postTask m (.payload t.toJson)).1 t.ID).2.status = 200 ∧
    (getTask (postTask m (.payload t.toJson)).1 t.ID).2.contentType
      = some "application/json" ∧
    ∃ j, (getTask (postTask m (.payload t.toJson)).1 t.ID).2.body = Body.json j ∧
         Task.fromJson j = .ok t := by
  have hpost : (postTask m (.payload t.toJson)).1 = m.insert t.ID t := by
    simp [postTask, fromJson_toJson]
  have hget : getTask (m.insert t.ID t) t.ID
      = (m.insert t.ID t,
         { status := 200, contentType := some "application/json",
           body := .json t.toJson }) := by
    simp [getTask, getTaskWith, find?_insert]
  rw [hpost, hget]
  exact ⟨rfl, rfl, rfl, t.toJson, rfl, fromJson_toJson t⟩

/-- C7: after one delete of an id, every further delete of the same id
leaves the map exactly as it is, and the second and later deletes respond
400 "Task was not found.". -/
theorem deleteTask_idempotent (m : TaskMap) (id : String) :
    (deleteTask (deleteTask m id).1 id).1 = (deleteTask m id).1 ∧
    (deleteTask (deleteTask m id).1 id).2 = httpError "Task was not found." 400 ∧
    ∀ n : Nat, (fun s => (deleteTask s id).1)^[n] (deleteTask m id).1
      = (deleteTask m id).1 := by
  have hnone : ((deleteTask m id).1).find? id = none := by
    cases hf : m.find? id with
    | none => simp [deleteTask, hf]
    | some t => simp [deleteTask, hf, find?_erase]
  have hstep : deleteTask (deleteTask m id).1 id
      = ((deleteTask m id).1, httpError "Task was not found." 400) := by
    generalize (deleteTask m id).1 = m1 at hnone ⊢
    simp [deleteTask, hnone]
  refine ⟨by rw [hstep], by rw [hstep], ?_⟩
  intro n
  induction n with
  | zero => rfl
  | succ k ih => simp only [Function.iterate_succ_apply, hstep, ih]

/-- C8: whenever the output marshal step fails, the list handler responds
500 with the error message while the single-get handler responds 400 with
the error message — the asymmetry holds for every such failure. -/
theorem marshal_failure_status_asymmetry
    (marshalM : TaskMap → Except String Json) (marshalT : Task → Except String Json)
    (m : TaskMap) (id : String) (t : Task) (e e' : String)
    (h1 : marshalM m = .error e) (h2 : m.find? id = some t)
    (h3 : marshalT t = .error e') :
    getTasksWith marshalM m = httpError e 500 ∧
    getTaskWith marshalT m id = (m, httpError e' 400) :=
  ⟨by simp [getTasksWith, h1], by simp [getTaskWith, h2, h3]⟩

/-- A marshal step for the whole map that always fails, for the C8 witness. -/
def failMarshalTasks : TaskMap → Except String Json := fun _ => .error "boom"

/-- A marshal step for one task that always fails, for the C8 witness. -/
def failMarshalTask : Task → Except String Json := fun _ => .error "bang"

/-- Witness for C8: concrete failing marshal steps on the seed state. -/
theorem marshal_failure_status_asymmetry_witness :
    failMarshalTasks tasks = .error "boom" ∧
    tasks.find? "1" = some seedTask1 ∧
    failMarshalTask seedTask1 = .error "bang" ∧
    getTasksWith failMarshalTasks tasks = httpError "boom" 500 ∧
    getTaskWith failMarshalTask tasks "1" = (tasks, httpError "bang" 400) := by
  have h := marshal_failure_status_asymmetry failMarshalTasks failMarshalTask
    tasks "1" seedTask1 "boom" "bang" rfl rfl rfl
  exact ⟨rfl, rfl, rfl, h.1, h.2⟩

/-- C9: when the body cannot be read or cannot be unmarshalled into the
task shape, `postTask` responds 400 with the underlying error message and
the map is exactly what it was (no partial insert). -/
theorem postTask_error_atomic (m : TaskMap) (msg : String) (j : Json) (e : String)
    (h : Task.fromJson j = .error e) :
    postTask m (.readError msg) = (m, httpError msg 400) ∧
    postTask m (.syntaxError msg) = (m, httpError msg 400) ∧
    postTask m (.payload j) = (m, httpError e 400) :=
  ⟨rfl, rfl, by simp [postTask, h]⟩

/-- Witness for C9: a read error and a body that is a JSON number, on the
seed state. -/
theorem postTask_error_atomic_witness :
    Task.fromJson (Json.num 3)
      = .error "json: cannot unmarshal number into Go value of type main.Task" ∧
    (postTask tasks (.readError "unexpected EOF")
        = (tasks, httpError "unexpected EOF" 400) ∧
     postTask tasks (.syntaxError "unexpected EOF")
        = (tasks, httpError "unexpected EOF" 400) ∧
     postTask tasks (.payload (Json.num 3))
        = (tasks,
           httpError "json: cannot unmarshal number into Go value of type main.Task" 400)) :=
  ⟨rfl, postTask_error_atomic tasks "unexpected EOF" (Json.num 3) _ rfl⟩

/-- C10: `main` serves on address ":8080"; when the listener returns an
error the failure is logged (and `main` returns), and when it returns
without error the startup message "Listen and Serve" is printed. -/
theorem main_listen_and_log (e : String) :
    serveAddr = ":8080" ∧
    mainLogs (some e) = ["Ошибка при запуске сервера: " ++ e] ∧
    mainLogs none = ["Listen and Serve"] :=
  ⟨rfl, rfl, rfl⟩

end Precode
